import Mathlib

/-!
Verification development for the infractl deployment agent.

Each definition is a shallow embedding of the corresponding Rust function,
translated from the source under review.  External effects (filesystem,
subprocesses, HTTP, clocks, cryptographic hashing) are supplied as explicit
oracle parameters; machine timestamps are modelled as `Nat`/`Int`.
-/

namespace Infractl

/-! ## String helpers

Rust `str::contains(pattern)` is substring containment; we model strings by
their character lists and use `List.isInfixOf`. -/

/-- `charListContains s pat` holds when `pat` occurs contiguously inside
`s`: at each suffix of `s` we test whether `pat` is a leading segment. -/
def charListContains : List Char → List Char → Bool
  | [], pat => pat.isEmpty
  | c :: rest, pat => pat.isPrefixOf (c :: rest) || charListContains rest pat

/-- Substring containment: `containsSubstr s pat` holds when `pat` occurs
contiguously inside `s` (Rust `s.contains(pat)` for a string pattern). -/
def containsSubstr (s pat : String) : Bool :=
  charListContains s.toList pat.toList

/-! ## Command validator (src/deploy/script.rs, `validate_command`)

The Rust function scans a fixed pattern list in order and returns the first
match as an error; afterwards it emits a warning (a log record, modelled as
the `Bool` payload of the `ok` result) when the command contains a plain `>`
that is not part of `>>` or `>&`. -/

/-- The `dangerous_patterns` table of `validate_command`, in source order. -/
def dangerous_patterns : List (String × String) :=
  [("$(", "command substitution"),
   ("\x60", "backtick command substitution"),
   ("&&", "command chaining"),
   ("||", "conditional execution"),
   (";", "command separator"),
   ("|", "pipe"),
   (">>", "append redirect"),
   (">&", "file descriptor redirect"),
   ("<(", "process substitution"),
   (">(", "process substitution")]

/-- First dangerous pattern contained in `cmd`, scanning the table in order
(the `for` loop of `validate_command`). -/
def find_dangerous (cmd : String) : List (String × String) → Option (String × String)
  | [] => none
  | (p, d) :: rest =>
    if containsSubstr cmd p then some (p, d) else find_dangerous cmd rest

/-- `validate_command` from src/deploy/script.rs.  Returns an error for the
first dangerous pattern found; otherwise `ok warned` where `warned` records
whether the plain-`>` warning was emitted. -/
def validate_command (cmd : String) : Except String Bool :=
  match find_dangerous cmd dangerous_patterns with
  | some (p, d) =>
    .error ("Command contains forbidden pattern " ++ p ++ " (" ++ d ++ ")")
  | none =>
    .ok (cmd.toList.contains '>' && !containsSubstr cmd ">>" && !containsSubstr cmd ">&")

/-! ## Config sync (src/updater/config_sync.rs)

`sync` is modelled as a pure function of the fetched remote content and the
current local file content.  The SHA-256 hash and the YAML parser are oracle
parameters (`hash`, `yamlOk`).  The returned triple is
(`Result<changed>`, content of the local file after the call, whether a
backup was created); on the error paths the local file is untouched. -/

/-- `ConfigSync::validate_config`: YAML parse, non-empty, at least 50 bytes,
contains the text `mode:` — checked in source order. -/
def validate_config (yamlOk : String → Bool) (content : String) : Except String Unit :=
  if !yamlOk content then .error "Invalid YAML in remote config"
  else if content = "" then .error "Remote config is empty"
  else if content.utf8ByteSize < 50 then .error "Remote config seems too small"
  else if !containsSubstr content "mode:" then .error "Remote config missing mode field"
  else .ok ()

/-- `ConfigSync::sync`: compare hashes; if equal return `changed=false`
without touching the file; otherwise validate the remote content and only
then replace the local file (optionally after a backup). -/
def config_sync (hash : String → String) (yamlOk : String → Bool)
    (remote localContent : String) (backup : Bool) :
    Except String Bool × String × Bool :=
  if hash remote = hash localContent then
    (.ok false, localContent, false)
  else
    match validate_config yamlOk remote with
    | .error e => (.error e, localContent, false)
    | .ok () => (.ok true, remote, backup)

/-! ## Rate limiter (src/server/middleware.rs, `RateLimiter`)

The per-IP timestamp table is modelled as a total function from IPs to
timestamp lists (an absent key is the empty list, matching
`entry(ip).or_insert_with(Vec::new)`).  `Instant` subtraction saturates at
zero, matching `Nat` subtraction. -/

structure RateLimiter where
  requests : String → List Nat
  max_requests : Nat
  window : Nat

/-- `RateLimiter::check`: drop entries of `ip` older than the window; if the
remaining count is at least `max_requests`, reject without recording the
request; otherwise append `now` and accept. -/
def RateLimiter.check (rl : RateLimiter) (now : Nat) (ip : String) :
    Bool × RateLimiter :=
  let kept := (rl.requests ip).filter (fun t => now - t < rl.window)
  if rl.max_requests ≤ kept.length then
    (false, { rl with requests := fun j => if j = ip then kept else rl.requests j })
  else
    (true, { rl with requests := fun j => if j = ip then kept ++ [now] else rl.requests j })

/-! ## Deployment configuration (src/config.rs, the fields the deploy
subsystem reads) -/

inductive DeployType where
  | gitPull
  | dockerPull
  | customScript
deriving DecidableEq, Repr

structure DeploymentConfig where
  name : String
  deploy_type : DeployType
  path : Option String := none
  repo : Option String := none
  branch : Option String := none
  remote : Option String := none
  ssh_key : Option String := none
  compose_file : Option String := none
  script : Option String := none
  working_dir : Option String := none
  user : Option String := none
  git_files : List String := []
  pre_deploy : List String := []
  post_deploy : List String := []
  shutdown_cmds : List String := []
  trigger : List String := []
  continue_on_failure : Bool := false
deriving DecidableEq, Repr

/-! ## Deploy queue (src/deploy/queue.rs)

`VecDeque<DeployJob>` and `Vec<DeployJob>` are both modelled as `List`
(front of the deque = head of the list).  Clock reads (`Utc::now()`) and
UUIDs are passed in explicitly. -/

inductive JobStatus where
  | pending
  | running
  | completed
  | failed
  | cancelled
deriving DecidableEq, Repr

/-- The statuses treated as terminal by `DeployQueue::update_status`. -/
def JobStatus.isTerminal : JobStatus → Bool
  | .completed => true
  | .failed => true
  | .cancelled => true
  | _ => false

structure DeployJob where
  id : String
  agent_name : String
  deployment_name : String
  config : DeploymentConfig
  status : JobStatus
  created_at : Nat
  started_at : Option Nat := none
  completed_at : Option Nat := none
  trigger_source : Option String := none
deriving DecidableEq, Repr

/-- `DeployJob::new` with the UUID and clock reading passed in. -/
def DeployJob.new (agent_name deployment_name : String) (config : DeploymentConfig)
    (trigger_source : Option String) (id : String) (now : Nat) : DeployJob :=
  { id := id
    agent_name := agent_name
    deployment_name := deployment_name
    config := config
    status := .pending
    created_at := now
    started_at := none
    completed_at := none
    trigger_source := trigger_source }

structure DeployQueue where
  jobs : List DeployJob
  history : List DeployJob
  max_history : Nat
deriving Repr

/-- `DeployQueue::new`. -/
def DeployQueue.new (max_history : Nat) : DeployQueue :=
  { jobs := [], history := [], max_history := max_history }

/-- `DeployQueue::enqueue` (push_back). -/
def DeployQueue.enqueue (q : DeployQueue) (job : DeployJob) : DeployQueue :=
  { q with jobs := q.jobs ++ [job] }

/-- Remove the first element satisfying `p`, returning it together with the
remaining list in order (`iter().position` + `remove(pos)`). -/
def extractFirst (p : DeployJob → Bool) : List DeployJob → Option (DeployJob × List DeployJob)
  | [] => none
  | j :: rest =>
    if p j then some (j, rest)
    else (extractFirst p rest).map (fun pr => (pr.1, j :: pr.2))

/-- Replace the first element satisfying `p` by `f` applied to it; `none`
when no element matches (`iter_mut().find`). -/
def modifyFirst (p : DeployJob → Bool) (f : DeployJob → DeployJob) :
    List DeployJob → Option (List DeployJob)
  | [] => none
  | j :: rest =>
    if p j then some (f j :: rest)
    else (modifyFirst p f rest).map (fun l => j :: l)

/-- `DeployQueue::next_job`: pop the first pending job, mark it running,
stamp `started_at`, and push the updated copy back at the front. -/
def DeployQueue.next_job (q : DeployQueue) (now : Nat) :
    Option DeployJob × DeployQueue :=
  match extractFirst (fun j => j.status = .pending) q.jobs with
  | none => (none, q)
  | some (j, rest) =>
    let jRun := { j with status := .running, started_at := some now }
    (some jRun, { q with jobs := jRun :: rest })

/-- The history-trim loop of `update_status`:
`while history.len() > max_history { history.remove(0) }`. -/
def trimHistory (maxh : Nat) (h : List DeployJob) : List DeployJob :=
  if maxh < h.length then trimHistory maxh h.tail else h
termination_by h.length
decreasing_by
  cases h with
  | nil => simp at *
  | cons a t => simp

/-- `DeployQueue::update_status`: set the status of the first job with the
given id; when the new status is terminal, additionally stamp
`completed_at`, append the job to history, trim history, and remove every
live entry with that id. -/
def DeployQueue.update_status (q : DeployQueue) (job_id : String)
    (status : JobStatus) (now : Nat) : DeployQueue :=
  match q.jobs.find? (fun j => j.id = job_id) with
  | none => q
  | some j =>
    if status.isTerminal then
      let completed := { j with status := status, completed_at := some now }
      { q with
        history := trimHistory q.max_history (q.history ++ [completed])
        jobs := q.jobs.filter (fun j2 => j2.id ≠ job_id) }
    else
      match modifyFirst (fun j2 => j2.id = job_id) (fun j2 => { j2 with status := status }) q.jobs with
      | some jobs2 => { q with jobs := jobs2 }
      | none => q

/-- `DeployQueue::cancel`: only the first live job with the given id that is
still pending is marked cancelled (and stamped); the job stays in the live
queue.  Returns whether a job was cancelled. -/
def DeployQueue.cancel (q : DeployQueue) (job_id : String) (now : Nat) :
    Bool × DeployQueue :=
  match modifyFirst (fun j => j.id = job_id && j.status = .pending)
      (fun j => { j with status := .cancelled, completed_at := some now }) q.jobs with
  | some jobs2 => (true, { q with jobs := jobs2 })
  | none => (false, q)

/-! ### Queue operation sequences

Every caller of `enqueue` in the repository (the webhook handler and the
trigger fan-out) enqueues a job built by `DeployJob::new`, so the enqueue
operation carries the constructor arguments. -/

inductive QueueOp where
  | enq (agent name : String) (cfg : DeploymentConfig) (src : Option String)
        (id : String) (now : Nat)
  | next (now : Nat)
  | upd (id : String) (status : JobStatus) (now : Nat)
  | cancel (id : String) (now : Nat)

def applyOp (q : DeployQueue) : QueueOp → DeployQueue
  | .enq agent name cfg src id now => q.enqueue (DeployJob.new agent name cfg src id now)
  | .next now => (q.next_job now).2
  | .upd id status now => q.update_status id status now
  | .cancel id now => (q.cancel id now).2

def runOps (q : DeployQueue) (ops : List QueueOp) : DeployQueue :=
  ops.foldl applyOp q

/-- Whether an operation sequence contains a cancel. -/
def hasCancel : List QueueOp → Bool
  | [] => false
  | .cancel _ _ :: _ => true
  | _ :: rest => hasCancel rest

/-- The live-queue part of the claimed invariant: no terminal entry. -/
def liveInv (q : DeployQueue) : Prop :=
  ∀ j ∈ q.jobs, j.status.isTerminal = false

/-- The history part of the claimed invariant. -/
def histInv (q : DeployQueue) : Prop :=
  q.history.length ≤ q.max_history

/-! ## Deploy executor (src/deploy/executor.rs)

Filesystem tests and subprocess runs are oracle fields of `ExecEnv`; each
field is the outcome the corresponding external call would produce during
this execution.  `shellExec` is the raw shell spawn used by
`ScriptRunner::run_command` after validation. -/

structure ExecEnv where
  /-- `Path::exists` for the working path (phase 1). -/
  pathExists : String → Bool
  /-- `fs::create_dir_all` on the working path (phase 1). -/
  createDirAll : String → Except String Unit
  /-- Raw `sh -c` spawn of one command: the effect inside
  `ScriptRunner::run_command` after `validate_command` passed. -/
  shellExec : String → Except String String
  /-- `GitDeploy::fetch_files` on the parsed mappings (phase 3). -/
  fetchFiles : List (String × String) → Except String String
  /-- Whether `<path>/.git` exists (`execute_git_pull`). -/
  gitDirExists : String → Bool
  /-- Creating the parent directory before a first-deploy clone. -/
  clonePrep : Except String Unit
  /-- `GitDeploy::clone` output. -/
  gitClone : Except String String
  /-- `GitDeploy::pull` outcome: (output, has_changes). -/
  gitPull : Except String (String × Bool)
  /-- Whether the resolved compose file exists (`execute_docker_pull`). -/
  composeExists : Bool
  /-- `DockerDeploy::pull_and_restart` output. -/
  dockerPull : Except String String
  /-- Whether `Path::new(script.trim()).exists()` (`execute_custom_script`). -/
  scriptFileExists : String → Bool
  /-- `ScriptRunner::run_script` output (file scripts are not validated). -/
  runScript : Except String String

/-- `ScriptRunner::run_command`: validate the inline command, then spawn the
shell.  The warning payload of `validate_command` is discarded, as in the
source (it only logs). -/
def run_command (env : ExecEnv) (cmd : String) : Except String String :=
  match validate_command cmd with
  | .error e => .error e
  | .ok _ => env.shellExec cmd

/-- Run a command list in order, stopping at the first failure
(the pre-deploy and post-deploy loops of `DeployExecutor::execute`).
Returns the
commands actually handed to the script runner, the accumulated output, and
the error of the failing command, if any. -/
def runCmds (env : ExecEnv) (tag : String) :
    List String → List String × String × Option String
  | [] => ([], "", none)
  | c :: cs =>
    match run_command env c with
    | .ok o =>
      match runCmds env tag cs with
      | (ran, out, err) => (c :: ran, "[" ++ tag ++ "] " ++ c ++ "\n" ++ o ++ "\n" ++ out, err)
    | .error e => ([c], "", some (tag ++ " command failed: " ++ e))

/-- `parse_file_mappings` from src/deploy/executor.rs: split each entry at
the first colon (`splitn(2, ..)`). -/
def splitFirstColon (s : String) : List String :=
  match s.toList.findIdx? (fun c => c = ':') with
  | none => [s]
  | some i => [⟨s.toList.take i⟩, ⟨s.toList.drop (i + 1)⟩]

def parse_file_mappings (files : List String) : Except String (List (String × String)) :=
  match files with
  | [] => .ok []
  | f :: rest =>
    match splitFirstColon f with
    | [a, b] =>
      match parse_file_mappings rest with
      | .ok tl => .ok ((a, b) :: tl)
      | .error e => .error e
    | _ => .error ("Invalid format " ++ f ++ ", expected from:to")

/-- The `git_files` phase (phase 3) of `DeployExecutor::execute`.  `ok` with
the fetch output when the phase ran (or was skipped because `git_files` is
empty); `error` reproduces the early-return cases. -/
def gitFilesPhase (env : ExecEnv) (config : DeploymentConfig) : Except String String :=
  if config.git_files.isEmpty then .ok ""
  else
    match config.path, config.repo with
    | none, _ => .error "git_files requires path to be set"
    | some _, none => .error "git_files requires repo to be set"
    | some _, some _ =>
      match parse_file_mappings config.git_files with
      | .error e => .error ("git_files parse failed: " ++ e)
      | .ok mappings =>
        match env.fetchFiles mappings with
        | .error e => .error ("git_files fetch failed: " ++ e)
        | .ok out => .ok out

/-- `DeployExecutor::execute_git_pull`: clone on first deploy (counts as
changed), otherwise pull; the `Bool` is `has_changes`. -/
def execute_git_pull (env : ExecEnv) (config : DeploymentConfig) :
    Except String (String × Bool) :=
  match config.path with
  | none => .error "Git pull requires path to be set"
  | some path =>
    if env.gitDirExists path then env.gitPull
    else
      match config.repo with
      | none => .error "Git clone requires repo URL to be set"
      | some _ =>
        match env.clonePrep with
        | .error e => .error ("Failed to create directory: " ++ e)
        | .ok () =>
          match env.gitClone with
          | .error e => .error e
          | .ok out => .ok ("[git clone] " ++ out ++ "\n", true)

/-- `DeployExecutor::execute_docker_pull`. -/
def execute_docker_pull (env : ExecEnv) (config : DeploymentConfig) :
    Except String String :=
  match config.path with
  | none => .error "docker_pull requires path to be set"
  | some _ =>
    if env.composeExists then env.dockerPull
    else .error "Compose file not found"

/-- `DeployExecutor::execute_custom_script`: classify `script` as a file
path or an inline command; inline commands go through `run_command` (and so
through the validator). -/
def execute_custom_script (env : ExecEnv) (config : DeploymentConfig) :
    Except String String :=
  match config.script with
  | none => .error "Custom script requires script to be set"
  | some script =>
    let is_file := env.scriptFileExists script.trim ||
      (!script.contains '\n' && !script.contains ' ' && String.endsWith script ".sh")
    if is_file then env.runScript
    else run_command env script

/-- The main step (phase 4): the `Bool` is the `skipped` flag the caller
derives (`!has_changes` for git pull, `false` otherwise). -/
def mainPhase (env : ExecEnv) (config : DeploymentConfig) :
    Except String (String × Bool) :=
  match config.deploy_type with
  | .gitPull =>
    match execute_git_pull env config with
    | .ok (out, has_changes) => .ok (out, !has_changes)
    | .error e => .error e
  | .dockerPull =>
    match execute_docker_pull env config with
    | .ok out => .ok (out, false)
    | .error e => .error e
  | .customScript =>
    match execute_custom_script env config with
    | .ok out => .ok (out, false)
    | .error e => .error e

/-- The result record of src/deploy/mod.rs (`duration_ms` is wall-clock
time and is not modelled). -/
structure DeployResult where
  success : Bool
  skipped : Bool
  output : String
  error : Option String
deriving Repr, DecidableEq

/-- `DeployExecutor::execute`, instrumented with the lists of pre- and
post-deploy commands actually handed to the script runner. -/
def execute (env : ExecEnv) (config : DeploymentConfig) :
    DeployResult × List String × List String :=
  let phase1 : Except String Unit :=
    match config.path with
    | none => .ok ()
    | some p =>
      if env.pathExists p then .ok ()
      else
        match env.createDirAll p with
        | .ok () => .ok ()
        | .error e => .error ("Failed to create path " ++ p ++ ": " ++ e)
  match phase1 with
  | .error e =>
    ({ success := false, skipped := false, output := "", error := some e }, [], [])
  | .ok () =>
    match runCmds env "pre-deploy" config.pre_deploy with
    | (preRan, preOut, some e) =>
      ({ success := false, skipped := false, output := preOut, error := some e }, preRan, [])
    | (preRan, preOut, none) =>
      match gitFilesPhase env config with
      | .error e =>
        ({ success := false, skipped := false, output := preOut, error := some e }, preRan, [])
      | .ok gfOut =>
        match mainPhase env config with
        | .error e =>
          ({ success := false, skipped := false, output := preOut ++ gfOut,
             error := some ("Deployment failed: " ++ e) }, preRan, [])
        | .ok (mainOut, skipped) =>
          if skipped then
            ({ success := true, skipped := true, output := preOut ++ gfOut ++ mainOut,
               error := none }, preRan, [])
          else
            match runCmds env "post-deploy" config.post_deploy with
            | (postRan, postOut, some e) =>
              ({ success := false, skipped := false,
                 output := preOut ++ gfOut ++ mainOut ++ postOut,
                 error := some e }, preRan, postRan)
            | (postRan, postOut, none) =>
              ({ success := true, skipped := false,
                 output := preOut ++ gfOut ++ mainOut ++ postOut,
                 error := none }, preRan, postRan)

/-! ## Deploy worker trigger fan-out (src/deploy/mod.rs) -/

/-- The loop body of `process_triggers`: resolve each trigger name; enqueue
a fresh job for a found child; for a missing child stop the fan-out unless
`continue_on_failure`.  `ids k` is the UUID drawn for the k-th child. -/
def process_triggers_go (deployments : List DeploymentConfig) (parent : DeployJob)
    (ids : Nat → String) (now : Nat) : List String → Nat → List DeployJob
  | [], _ => []
  | name :: rest, k =>
    match deployments.find? (fun d => d.name = name) with
    | some cfg =>
      DeployJob.new parent.agent_name name cfg
          (some ("trigger:" ++ parent.deployment_name)) (ids k) now
        :: process_triggers_go deployments parent ids now rest (k + 1)
    | none =>
      if parent.config.continue_on_failure then
        process_triggers_go deployments parent ids now rest (k + 1)
      else []

/-- `process_triggers` over the parent job's trigger list. -/
def process_triggers (deployments : List DeploymentConfig) (parent : DeployJob)
    (ids : Nat → String) (now : Nat) : List DeployJob :=
  process_triggers_go deployments parent ids now parent.config.trigger 0

/-- The post-execution step of `start_worker`: trigger children are
computed only when the job succeeded, was not skipped, and has a non-empty
trigger list. -/
def workerChildJobs (deployments : List DeploymentConfig) (job : DeployJob)
    (r : DeployResult) (ids : Nat → String) (now : Nat) : List DeployJob :=
  if r.success && !r.skipped && !job.config.trigger.isEmpty then
    process_triggers deployments job ids now
  else []

/-! ## Path containment (src/deploy/git.rs, `validate_path_containment`)

Filesystem paths are modelled as component lists; `canonicalize` and
`Path::exists` are oracles of `PathEnv`.  `Path::starts_with` on
canonical paths is component-wise list prefix. -/

abbrev FsPath := List String

structure PathEnv where
  pathExists : FsPath → Bool
  canonical : FsPath → Except String FsPath
  createDirAll : FsPath → Except String Unit

/-- `Path::parent` + `file_name`: split off the last component.  `none`
for the empty (rootless) path, where Rust `parent()` yields `None`. -/
def splitParent : FsPath → Option (FsPath × String)
  | [] => none
  | [x] => some ([], x)
  | x :: y :: rest => (splitParent (y :: rest)).map (fun pr => (x :: pr.1, pr.2))

/-- The canonical-target computation of `validate_path_containment`:
canonicalize the target directly when it exists, else create and
canonicalize its parent and re-append the file name. -/
def canonicalTargetOf (env : PathEnv) (target : FsPath) : Except String FsPath :=
  if env.pathExists target then
    match env.canonical target with
    | .ok t => .ok t
    | .error e => .error ("Cannot resolve target path: " ++ e)
  else
    match splitParent target with
    | none => .error "Target path has no parent directory"
    | some (par, fname) =>
      match env.createDirAll par with
      | .error e => .error ("Cannot create parent directory: " ++ e)
      | .ok () =>
        match env.canonical par with
        | .ok p => .ok (p ++ [fname])
        | .error e => .error ("Cannot resolve target path: " ++ e)

/-- `validate_path_containment`: canonicalize base and target, then fail
unless the canonical base is a leading segment of the canonical target
(`canonical_target.starts_with(canonical_base)`). -/
def validate_path_containment (env : PathEnv) (base target : FsPath) :
    Except String FsPath :=
  match env.canonical base with
  | .error e => .error ("Cannot resolve base path: " ++ e)
  | .ok canonical_base =>
    match canonicalTargetOf env target with
    | .error e => .error e
    | .ok canonical_target =>
      if canonical_base.isPrefixOf canonical_target then .ok canonical_target
      else .error "Path traversal detected"

/-! ## Bearer tokens (src/server/auth.rs)

A JWT is modelled by its claims plus the secret whose HMAC-SHA256
signature it carries.  `decode` models the `jsonwebtoken` library under
`Validation::default()` with the issuer pinned to `"infractl"`: signature
check, expiry check with a non-negative leeway, issuer check.
`Claims::is_expired` is the explicit repository check `now > exp`. -/

structure Claims where
  sub : String
  exp : Int
  iat : Int
  iss : String
deriving DecidableEq, Repr

structure Token where
  claims : Claims
  signedWith : String
deriving DecidableEq, Repr

inductive DecodeError where
  | invalidSignature
  | expiredSignature
  | invalidIssuer
deriving DecidableEq, Repr

inductive JwtError where
  | decodeFail (e : DecodeError)
  | expired
deriving DecidableEq, Repr

/-- The `jsonwebtoken::decode` call inside `JwtManager::validate_token`. -/
def jwtDecode (now leeway : Int) (secret : String) (t : Token) :
    Except DecodeError Claims :=
  if t.signedWith ≠ secret then .error .invalidSignature
  else if t.claims.exp < now - leeway then .error .expiredSignature
  else if t.claims.iss ≠ "infractl" then .error .invalidIssuer
  else .ok t.claims

/-- `Claims::is_expired`: `Utc::now().timestamp() > self.exp`. -/
def Claims.is_expired (c : Claims) (now : Int) : Bool :=
  now > c.exp

/-- `JwtManager::validate_token`: decode, then reject via `is_expired`. -/
def validate_token (now leeway : Int) (secret : String) (t : Token) :
    Except JwtError Claims :=
  match jwtDecode now leeway secret t with
  | .error e => .error (.decodeFail e)
  | .ok c => if c.is_expired now then .error .expired else .ok c

/-- The `Display` text of `JwtError` (src/server/auth.rs). -/
def jwtErrMsg : JwtError → String
  | .decodeFail .invalidSignature => "Failed to decode token: InvalidSignature"
  | .decodeFail .expiredSignature => "Failed to decode token: ExpiredSignature"
  | .decodeFail .invalidIssuer => "Failed to decode token: InvalidIssuer"
  | .expired => "Token has expired"

/-! ## Admission pipeline (src/server/middleware.rs, src/server/mod.rs)

Each middleware either passes the request to the next layer or answers it
with a status code; a rejection also emits the suspicious-request records
listed in `logs` (the `log_suspicious_request` calls).  The stack order in
`src/server/mod.rs` is network isolation, then JWT auth, then rate
limiting, then the handler. -/

structure HttpRequest where
  path : String
  method : String
  clientIp : String
  /-- The `Authorization` header, when present and readable as a string. -/
  authHeader : Option String
deriving Repr

structure SuspiciousRecord where
  ip : String
  method : String
  path : String
  reason : String
deriving DecidableEq, Repr

inductive Admission where
  | pass
  | reject (status : Nat)
deriving DecidableEq, Repr

structure MwResult where
  outcome : Admission
  logs : List SuspiciousRecord
deriving DecidableEq, Repr

/-- `network_isolation`. -/
def network_isolation (isolationMode : Bool) (ipAllowed : String → Bool)
    (req : HttpRequest) : MwResult :=
  if !isolationMode then ⟨.pass, []⟩
  else if ipAllowed req.clientIp then ⟨.pass, []⟩
  else ⟨.reject 403, [⟨req.clientIp, req.method, req.path, "network_violation"⟩]⟩

/-- `jwt_auth`.  `tokenOf` maps the bearer-token string to the token data
it encodes (the parsing step of the JWT library). -/
def jwt_auth (tokenOf : String → Token) (now leeway : Int) (secret : String)
    (req : HttpRequest) : MwResult :=
  if req.path = "/health" ∨ req.path = "/" ∨ req.path = "/monitoring" then ⟨.pass, []⟩
  else
    match req.authHeader with
    | some h =>
      if h.startsWith "Bearer " then
        match validate_token now leeway secret (tokenOf (h.drop 7)) with
        | .ok _ => ⟨.pass, []⟩
        | .error e =>
          ⟨.reject 401,
           [⟨req.clientIp, req.method, req.path, "invalid_jwt: " ++ jwtErrMsg e⟩]⟩
      else ⟨.reject 401, [⟨req.clientIp, req.method, req.path, "malformed_auth_header"⟩]⟩
    | none => ⟨.reject 401, [⟨req.clientIp, req.method, req.path, "missing_auth"⟩]⟩

/-- `rate_limiting`, threading the limiter state. -/
def rate_limiting (rl : RateLimiter) (now : Nat) (req : HttpRequest) :
    MwResult × RateLimiter :=
  match rl.check now req.clientIp with
  | (true, rl2) => (⟨.pass, []⟩, rl2)
  | (false, rl2) =>
    (⟨.reject 429, [⟨req.clientIp, req.method, req.path, "rate_limit_exceeded"⟩]⟩, rl2)

/-- The composed admission pipeline in the order the server installs it.
A rejecting layer answers the request itself, so later layers (and the
downstream handler) never run. -/
def admission_pipeline (isolationMode : Bool) (ipAllowed : String → Bool)
    (tokenOf : String → Token) (now leeway : Int) (secret : String)
    (rl : RateLimiter) (rlNow : Nat) (req : HttpRequest) :
    MwResult × RateLimiter :=
  let n := network_isolation isolationMode ipAllowed req
  match n.outcome with
  | .reject _ => (n, rl)
  | .pass =>
    let j := jwt_auth tokenOf now leeway secret req
    match j.outcome with
    | .reject _ => (j, rl)
    | .pass => rate_limiting rl rlNow req

/-! ## Webhook signature verification (src/server/routes/webhook.rs) -/

structure WebhookHeaders where
  /-- The `x-hub-signature-256` header. -/
  hubSignature : Option String
  /-- The `x-gitlab-token` header. -/
  gitlabToken : Option String
deriving Repr

/-- `verify_signature`: a present `x-hub-signature-256` header alone
decides the outcome (GitHub-style HMAC); otherwise `x-gitlab-token` is
compared literally; otherwise fail.  `hmacHex secret body` is the lowercase
hex HMAC-SHA256 oracle. -/
def verify_signature (hmacHex : String → List Nat → String)
    (headers : WebhookHeaders) (body : List Nat) (secret : String) :
    Except String Unit :=
  match headers.hubSignature with
  | some sig =>
    if sig.startsWith "sha256=" then
      if hmacHex secret body = sig.drop 7 then .ok ()
      else .error "Signature mismatch"
    else .error "Invalid signature format"
  | none =>
    match headers.gitlabToken with
    | some tok => if tok = secret then .ok () else .error "Token mismatch"
    | none => .error "No signature or token provided"

/-- The admission slice of `trigger_deploy` for a deployment whose webhook
endpoint configures secret `s`: when `s` is non-empty, a failed signature
check answers 401 and the job is not enqueued; otherwise the job is
enqueued. -/
def trigger_deploy_auth (hmacHex : String → List Nat → String) (s : String)
    (headers : WebhookHeaders) (body : List Nat) (q : DeployQueue)
    (job : DeployJob) : Except Nat DeployQueue :=
  if s ≠ "" then
    match verify_signature hmacHex headers body s with
    | .error _ => .error 401
    | .ok () => .ok (q.enqueue job)
  else .ok (q.enqueue job)

deriving instance DecidableEq for Except

/-! ## Concrete instances used by witnesses and counterexamples -/

/-- A minimal custom-script deployment. -/
def cfgX : DeploymentConfig :=
  { name := "x", deploy_type := .customScript, script := some "echo ok" }

/-- A git-pull deployment with post-deploy commands and a trigger. -/
def cfgGit : DeploymentConfig :=
  { name := "site", deploy_type := .gitPull, path := some "/srv/site",
    pre_deploy := ["echo before"], post_deploy := ["echo after"],
    trigger := ["child"] }

/-- An environment in which the git pull reports no changes. -/
def envNoChanges : ExecEnv :=
  { pathExists := fun _ => true
    createDirAll := fun _ => .ok ()
    shellExec := fun _ => .ok "out"
    fetchFiles := fun _ => .ok ""
    gitDirExists := fun _ => true
    clonePrep := .ok ()
    gitClone := .ok ""
    gitPull := .ok ("[no changes] already up to date\n", false)
    composeExists := true
    dockerPull := .ok ""
    scriptFileExists := fun _ => false
    runScript := .ok "" }

/-- A job for `cfgGit`. -/
def jobGit : DeployJob := DeployJob.new "local" "site" cfgGit none "job-1" 0

/-- A deterministic UUID supply. -/
def idsW : Nat → String := fun k => "uuid-" ++ toString k

/-- Trivial canonicalization environment: every path exists and is its own
canonical form. -/
def pathEnvId : PathEnv :=
  { pathExists := fun _ => true
    canonical := fun p => .ok p
    createDirAll := fun _ => .ok () }

/-- A token signed with `"secret"` that expires exactly at time 0. -/
def tokenBoundary : Token :=
  { claims := { sub := "agent-01", exp := 0, iat := 0, iss := "infractl" }
    signedWith := "secret" }

/-- Token data oracle mapping every token string to `tokenBoundary`. -/
def tokenOfW : String → Token := fun _ => tokenBoundary

/-- A rate limiter holding one fresh timestamp for every IP, with capacity 1. -/
def rlOne : RateLimiter :=
  { requests := fun _ => [5], max_requests := 1, window := 60 }

/-- An unauthenticated request to a protected path. -/
def reqNoAuth : HttpRequest :=
  { path := "/webhook/queue", method := "GET", clientIp := "198.51.100.7",
    authHeader := none }

/-- A trivial HMAC oracle. -/
def hmacW : String → List Nat → String := fun _ _ => "feed"

/-- Deployment configs named A and B for the fan-out witness. -/
def cfgA : DeploymentConfig := { name := "A", deploy_type := .customScript }

def cfgB : DeploymentConfig := { name := "B", deploy_type := .customScript }

/-- A parent job whose trigger list is `[A, B]`. -/
def parentAB : DeployJob :=
  DeployJob.new "local" "parent"
    { name := "parent", deploy_type := .customScript, trigger := ["A", "B"] }
    none "pid" 0

/-- A successful, unskipped result. -/
def resOk : DeployResult :=
  { success := true, skipped := false, output := "", error := none }

/-- A remote config body that passes every `validate_config` check. -/
def remoteSample : String :=
  "mode: agent\nserver:\n  port: 8080\n  isolation_mode: false\n"

/-- A well-signed token that expired at time 3. -/
def tokenExpired : Token :=
  { claims := { sub := "agent-01", exp := 3, iat := 0, iss := "infractl" }
    signedWith := "secret" }

/-- Identity stands in for the (injective on our inputs) SHA-256 hex oracle. -/
def hashId : String → String := fun s => s

/-- A YAML parser oracle that accepts everything. -/
def yamlTrue : String → Bool := fun _ => true

/-! # Theorems -/

/-! ## Command validator (C7) -/

theorem find_dangerous_eq_none (cmd : String) (l : List (String × String)) :
    find_dangerous cmd l = none ↔ (l.any fun pd => containsSubstr cmd pd.1) = false := by
  induction l with
  | nil => simp [find_dangerous]
  | cons pd rest ih =>
    obtain ⟨p, d⟩ := pd
    by_cases h : containsSubstr cmd p <;> simp [find_dangerous, h, ih]

/-- C7: `validate_command` returns an error exactly when the command
contains one of the ten forbidden substrings; in particular the injection
attempt with `;` is rejected, a benign command is accepted without a
warning, and a command with a plain `>` is accepted with the warning
flag set. -/
theorem c7_validator_characterization :
    (∀ cmd : String,
      (validate_command cmd).isOk = false ↔
        (dangerous_patterns.any fun pd => containsSubstr cmd pd.1) = true)
    ∧ (validate_command "rm -rf / ; echo pwned").isOk = false
    ∧ validate_command "command arg1 arg2" = .ok false
    ∧ validate_command "echo hello > out.txt" = .ok true := by
  refine ⟨fun cmd => ?_, by decide, by decide, by decide⟩
  unfold validate_command
  cases h : find_dangerous cmd dangerous_patterns with
  | none =>
    have := (find_dangerous_eq_none cmd dangerous_patterns).mp h
    simp [Except.isOk, Except.toBool, this]
  | some pd =>
    obtain ⟨p, d⟩ := pd
    have : ¬ find_dangerous cmd dangerous_patterns = none := by simp [h]
    rw [find_dangerous_eq_none] at this
    simp only [Bool.not_eq_false] at this
    simp [Except.isOk, Except.toBool, this]

/-! ## Rate limiter frame property (C9) -/

/-- C9: a rejecting `RateLimiter::check` does not append the current
timestamp — the rejected IP's entry is exactly the window-filtered old
entry (a sublist of it), and every other IP's entry is untouched. -/
theorem c9_rate_limit_frame (rl : RateLimiter) (now : Nat) (ip : String)
    (h : (rl.check now ip).1 = false) :
    (rl.check now ip).2.requests ip
        = (rl.requests ip).filter (fun t => now - t < rl.window)
    ∧ (∀ j, j ≠ ip → (rl.check now ip).2.requests j = rl.requests j)
    ∧ ((rl.check now ip).2.requests ip).Sublist (rl.requests ip) := by
  simp only [RateLimiter.check] at h ⊢
  by_cases hc :
      rl.max_requests ≤ ((rl.requests ip).filter (fun t => now - t < rl.window)).length
  · refine ⟨by simp [hc], fun j hj => by simp [hc, hj], ?_⟩
    simp [hc, List.filter_sublist]
  · simp [hc] at h

theorem c9_witness :
    (RateLimiter.check rlOne 5 "198.51.100.7").2.requests "198.51.100.7"
      = (rlOne.requests "198.51.100.7").filter (fun t => 5 - t < rlOne.window) :=
  (c9_rate_limit_frame rlOne 5 "198.51.100.7" rfl).1

/-! ## Webhook signature precedence (C10) -/

/-- C10: with a non-empty endpoint secret, a present `x-hub-signature-256`
header alone decides `verify_signature` (the GitLab token is never
consulted), and a request with neither header is answered 401 by the
deploy webhook without enqueueing a job. -/
theorem c10_webhook_signature_precedence :
    (∀ (hmacHex : String → List Nat → String) (sig : String)
        (g g' : Option String) (body : List Nat) (secret : String),
      verify_signature hmacHex ⟨some sig, g⟩ body secret
        = verify_signature hmacHex ⟨some sig, g'⟩ body secret)
    ∧ (∀ (hmacHex : String → List Nat → String) (s : String) (body : List Nat)
        (q : DeployQueue) (job : DeployJob), s ≠ "" →
      trigger_deploy_auth hmacHex s ⟨none, none⟩ body q job = .error 401) := by
  refine ⟨fun _ _ _ _ _ _ => rfl, fun hm s body q job hs => ?_⟩
  simp [trigger_deploy_auth, verify_signature, hs]

theorem c10_witness :
    trigger_deploy_auth hmacW "sec" ⟨none, none⟩ [] (DeployQueue.new 1) jobGit
      = .error 401 :=
  c10_webhook_signature_precedence.2 hmacW "sec" [] (DeployQueue.new 1) jobGit (by decide)

/-! ## Path containment (C3) -/

/-- C3 counterexample: with identity canonicalization, `validate` accepts
base `a`, target `a/b`, yet the canonical target `a/b` is not a prefix of
the canonical base `a` — the containment check is the other way round. -/
theorem c3_counterexample :
    validate_path_containment pathEnvId ["a"] ["a", "b"] = .ok ["a", "b"]
    ∧ (["a", "b"] : FsPath).isPrefixOf ["a"] = false := by
  constructor <;> rfl

/-- C3 amended: whenever `validate_path_containment` succeeds, the
canonical **base** is a prefix of the canonical target (the target is a
descendant of the base), not the reverse. -/
theorem c3_amended_base_leads_target (env : PathEnv) (base target : FsPath)
    (ct cb : FsPath)
    (hok : validate_path_containment env base target = .ok ct)
    (hcb : env.canonical base = .ok cb) :
    cb.isPrefixOf ct = true := by
  unfold validate_path_containment at hok
  rw [hcb] at hok
  cases hct : canonicalTargetOf env target with
  | error e => simp [hct] at hok
  | ok t =>
    simp only [hct] at hok
    by_cases hp : cb.isPrefixOf t
    · simp only [hp, if_true] at hok
      cases hok
      exact hp
    · simp [hp] at hok

theorem c3_witness :
    (["a"] : FsPath).isPrefixOf ["a", "b"] = true :=
  c3_amended_base_leads_target pathEnvId ["a"] ["a", "b"] ["a", "b"] ["a"] rfl rfl

/-! ## Bearer-token expiry (C5) -/

/-- `validate_token` as one decision tree (signature, decode-level expiry
with leeway, issuer, then the explicit `is_expired` check). -/
theorem validate_token_eq (now leeway : Int) (secret : String) (t : Token) :
    validate_token now leeway secret t =
      if t.signedWith ≠ secret then .error (.decodeFail .invalidSignature)
      else if t.claims.exp < now - leeway then .error (.decodeFail .expiredSignature)
      else if t.claims.iss ≠ "infractl" then .error (.decodeFail .invalidIssuer)
      else if now > t.claims.exp then .error .expired
      else .ok t.claims := by
  unfold validate_token jwtDecode Claims.is_expired
  by_cases h1 : t.signedWith = secret <;>
    by_cases h2 : t.claims.exp < now - leeway <;>
      by_cases h3 : t.claims.iss = "infractl" <;>
        by_cases h4 : now > t.claims.exp <;>
          simp [h1, h2, h3, h4]

/-- C5 counterexample: a well-signed token with issuer `infractl` and
`exp = now` is accepted by `validate_token`, although `exp ≤ now`; the
repository check `is_expired` is strict (`now > exp`), so the claimed
boundary `exp ≤ now → rejected as expired` fails at `exp = now`. -/
theorem c5_counterexample :
    tokenBoundary.claims.exp ≤ 0
    ∧ validate_token 0 60 "secret" tokenBoundary = .ok tokenBoundary.claims := by
  exact ⟨by decide, rfl⟩

/-- C5 amended: for any non-negative decode leeway, a token validates
exactly when its signature verifies under the secret, its issuer is
`infractl`, and `now ≤ exp`; and every well-signed, well-issued token with
`exp < now` (strictly in the past) is rejected with one of the two expiry
errors. -/
theorem c5_amended_expiry_boundary (now leeway : Int) (secret : String)
    (t : Token) (hl : 0 ≤ leeway) :
    (validate_token now leeway secret t = .ok t.claims ↔
      (t.signedWith = secret ∧ t.claims.iss = "infractl" ∧ now ≤ t.claims.exp))
    ∧ (t.signedWith = secret → t.claims.iss = "infractl" → t.claims.exp < now →
        validate_token now leeway secret t = .error .expired ∨
        validate_token now leeway secret t = .error (.decodeFail .expiredSignature)) := by
  rw [validate_token_eq]
  split_ifs with h1 h2 h3 h4
  · exact ⟨⟨fun h => by simp at h, fun h => absurd h.1 h1⟩,
      fun hs _ _ => absurd hs h1⟩
  · refine ⟨⟨fun h => by simp at h, fun h => absurd h.2.2 (by omega)⟩,
      fun _ _ _ => Or.inr rfl⟩
  · exact ⟨⟨fun h => by simp at h, fun h => absurd h.2.1 h3⟩,
      fun _ hi _ => absurd hi h3⟩
  · refine ⟨⟨fun h => by simp at h, fun h => absurd h.2.2 (by omega)⟩,
      fun _ _ _ => Or.inl rfl⟩
  · refine ⟨⟨fun _ => ⟨not_not.mp h1, not_not.mp h3, by omega⟩, fun _ => rfl⟩,
      fun _ _ hlt => absurd hlt (by omega)⟩

theorem c5_witness :
    validate_token 10 60 "secret" tokenExpired = .error .expired ∨
    validate_token 10 60 "secret" tokenExpired = .error (.decodeFail .expiredSignature) :=
  (c5_amended_expiry_boundary 10 60 "secret" tokenExpired (by decide)).2 rfl rfl (by decide)

/-! ## Config sync write guard (C8) -/

/-- The facts established by a successful `validate_config`. -/
theorem validate_config_ok (yamlOk : String → Bool) (content : String)
    (h : validate_config yamlOk content = .ok ()) :
    yamlOk content = true ∧ content ≠ "" ∧ 50 ≤ content.utf8ByteSize ∧
    containsSubstr content "mode:" = true := by
  unfold validate_config at h
  split_ifs at h with h1 h2 h3 h4
  exact ⟨by simpa using h1, h2, by omega, by simpa using h4⟩

/-- C8: `ConfigSync::sync` replaces the local file only with remote
content that passed validation (YAML parse, non-empty, at least 50 bytes,
contains `mode:`); and when the remote and local hashes agree it returns
`changed = false` and leaves the file untouched. -/
theorem c8_config_sync_guard (hash : String → String) (yamlOk : String → Bool)
    (remote localContent : String) (backup : Bool) :
    ((config_sync hash yamlOk remote localContent backup).2.1 ≠ localContent →
      yamlOk remote = true ∧ remote ≠ "" ∧ 50 ≤ remote.utf8ByteSize ∧
      containsSubstr remote "mode:" = true ∧
      (config_sync hash yamlOk remote localContent backup).2.1 = remote)
    ∧ (hash remote = hash localContent →
      (config_sync hash yamlOk remote localContent backup).1 = .ok false ∧
      (config_sync hash yamlOk remote localContent backup).2.1 = localContent) := by
  unfold config_sync
  by_cases hh : hash remote = hash localContent
  · simp [hh]
  · simp only [hh, if_false]
    refine ⟨fun hne => ?_, fun hh2 => hh2.elim⟩
    cases hv : validate_config yamlOk remote with
    | error e =>
      rw [hv] at hne
      simp at hne
    | ok u =>
      cases u
      obtain ⟨hy, hne2, hsz, hmode⟩ := validate_config_ok yamlOk remote hv
      exact ⟨hy, hne2, hsz, hmode, rfl⟩

/-! ## Deploy queue invariants (C2) -/

theorem trimHistory_le (maxh : Nat) (n : Nat) :
    ∀ (h : List DeployJob), h.length ≤ n → (trimHistory maxh h).length ≤ maxh := by
  induction n with
  | zero =>
    intro h hh
    unfold trimHistory
    split
    next hc => omega
    next hc => omega
  | succ n ih =>
    intro h hh
    unfold trimHistory
    split
    next hc => exact ih h.tail (by simp [List.length_tail]; omega)
    next hc => omega

theorem extractFirst_mem (p : DeployJob → Bool) :
    ∀ (l : List DeployJob) (j : DeployJob) (rest : List DeployJob),
      extractFirst p l = some (j, rest) → ∀ x ∈ rest, x ∈ l := by
  intro l
  induction l with
  | nil => intro j rest h; simp [extractFirst] at h
  | cons a t ih =>
    intro j rest h x hx
    simp only [extractFirst] at h
    by_cases hp : p a
    · rw [if_pos hp] at h
      simp only [Option.some.injEq, Prod.mk.injEq] at h
      obtain ⟨rfl, rfl⟩ := h
      exact List.mem_cons_of_mem a hx
    · rw [if_neg hp] at h
      cases he : extractFirst p t with
      | none => rw [he] at h; simp at h
      | some pr =>
        rw [he] at h
        simp only [Option.map_some', Option.some.injEq, Prod.mk.injEq] at h
        obtain ⟨rfl, rfl⟩ := h
        rcases List.mem_cons.mp hx with rfl | hx2
        · exact List.mem_cons_self _ _
        · exact List.mem_cons_of_mem _ (ih pr.1 pr.2 he x hx2)

theorem modifyFirst_mem (p : DeployJob → Bool) (f : DeployJob → DeployJob) :
    ∀ (l l2 : List DeployJob), modifyFirst p f l = some l2 →
      ∀ x ∈ l2, x ∈ l ∨ ∃ y, y ∈ l ∧ p y = true ∧ x = f y := by
  intro l
  induction l with
  | nil => intro l2 h; simp [modifyFirst] at h
  | cons a t ih =>
    intro l2 h x hx
    simp only [modifyFirst] at h
    by_cases hp : p a
    · rw [if_pos hp] at h
      simp only [Option.some.injEq] at h
      obtain rfl := h
      rcases List.mem_cons.mp hx with rfl | hx2
      · exact Or.inr ⟨a, List.mem_cons_self a t, hp, rfl⟩
      · exact Or.inl (List.mem_cons_of_mem a hx2)
    · rw [if_neg hp] at h
      cases hm : modifyFirst p f t with
      | none => rw [hm] at h; simp at h
      | some l3 =>
        rw [hm] at h
        simp only [Option.map_some', Option.some.injEq] at h
        obtain rfl := h
        rcases List.mem_cons.mp hx with rfl | hx2
        · exact Or.inl (List.mem_cons_self _ _)
        · rcases ih l3 hm x hx2 with hin | ⟨y, hy, hpy, hxy⟩
          · exact Or.inl (List.mem_cons_of_mem _ hin)
          · exact Or.inr ⟨y, List.mem_cons_of_mem _ hy, hpy, hxy⟩

theorem modifyFirst_found (p : DeployJob → Bool) (f : DeployJob → DeployJob) :
    ∀ (l l2 : List DeployJob), modifyFirst p f l = some l2 →
      ∃ y, y ∈ l ∧ p y = true ∧ f y ∈ l2 := by
  intro l
  induction l with
  | nil => intro l2 h; simp [modifyFirst] at h
  | cons a t ih =>
    intro l2 h
    simp only [modifyFirst] at h
    by_cases hp : p a
    · rw [if_pos hp] at h
      simp only [Option.some.injEq] at h
      obtain rfl := h
      exact ⟨a, List.mem_cons_self a t, hp, List.mem_cons_self (f a) t⟩
    · rw [if_neg hp] at h
      cases hm : modifyFirst p f t with
      | none => rw [hm] at h; simp at h
      | some l3 =>
        rw [hm] at h
        simp only [Option.map_some', Option.some.injEq] at h
        obtain rfl := h
        obtain ⟨y, hy, hpy, hfy⟩ := ih l3 hm
        exact ⟨y, List.mem_cons_of_mem a hy, hpy, List.mem_cons_of_mem a hfy⟩

theorem histInv_applyOp (q : DeployQueue) (op : QueueOp) (hq : histInv q) :
    histInv (applyOp q op) := by
  cases op with
  | enq agent name cfg src id now => exact hq
  | next now =>
    show histInv (q.next_job now).2
    unfold histInv DeployQueue.next_job
    cases he : extractFirst (fun j => j.status = .pending) q.jobs with
    | none => exact hq
    | some pr => exact hq
  | upd id status now =>
    show histInv (q.update_status id status now)
    unfold histInv DeployQueue.update_status
    cases hf : q.jobs.find? (fun j => j.id = id) with
    | none => exact hq
    | some j =>
      by_cases ht : status.isTerminal
      · simp only [ht, if_true]
        exact trimHistory_le q.max_history
          (q.history ++ [{ j with status := status, completed_at := some now }]).length
          (q.history ++ [{ j with status := status, completed_at := some now }]) le_rfl
      · simp only [ht, if_false]
        cases hm : modifyFirst (fun j2 => j2.id = id)
            (fun j2 => { j2 with status := status }) q.jobs with
        | none => exact hq
        | some l2 => exact hq
  | cancel id now =>
    show histInv (q.cancel id now).2
    unfold histInv DeployQueue.cancel
    cases hm : modifyFirst (fun j => j.id = id && j.status = .pending)
        (fun j => { j with status := .cancelled, completed_at := some now }) q.jobs with
    | none => exact hq
    | some l2 => exact hq

theorem liveInv_applyOp (q : DeployQueue) (op : QueueOp) (hq : liveInv q)
    (hop : ∀ id now, op ≠ QueueOp.cancel id now) : liveInv (applyOp q op) := by
  cases op with
  | enq agent name cfg src id now =>
    intro j hj
    rcases List.mem_append.mp hj with hj2 | hj2
    · exact hq j hj2
    · rcases List.mem_singleton.mp hj2 with rfl
      rfl
  | next now =>
    show liveInv (q.next_job now).2
    unfold DeployQueue.next_job
    cases he : extractFirst (fun j => j.status = .pending) q.jobs with
    | none => exact hq
    | some pr =>
      intro x hx
      rcases List.mem_cons.mp hx with rfl | hx2
      · rfl
      · exact hq x (extractFirst_mem _ q.jobs pr.1 pr.2 he x hx2)
  | upd id status now =>
    show liveInv (q.update_status id status now)
    unfold DeployQueue.update_status
    cases hf : q.jobs.find? (fun j => j.id = id) with
    | none => exact hq
    | some j =>
      by_cases ht : status.isTerminal
      · simp only [ht, if_true]
        intro x hx
        exact hq x (List.mem_of_mem_filter hx)
      · simp only [ht, if_false]
        cases hm : modifyFirst (fun j2 => j2.id = id)
            (fun j2 => { j2 with status := status }) q.jobs with
        | none => exact hq
        | some l2 =>
          intro x hx
          rcases modifyFirst_mem _ _ q.jobs l2 hm x hx with hin | ⟨y, hy, hpy, rfl⟩
          · exact hq x hin
          · simpa using ht
  | cancel id now => exact absurd rfl (hop id now)

theorem histInv_runOps :
    ∀ (ops : List QueueOp) (q : DeployQueue), histInv q → histInv (runOps q ops) := by
  intro ops
  induction ops with
  | nil => intro q hq; exact hq
  | cons op rest ih =>
    intro q hq
    exact ih (applyOp q op) (histInv_applyOp q op hq)

theorem liveInv_runOps :
    ∀ (ops : List QueueOp) (q : DeployQueue), liveInv q → hasCancel ops = false →
      liveInv (runOps q ops) := by
  intro ops
  induction ops with
  | nil => intro q hq _; exact hq
  | cons op rest ih =>
    intro q hq hnc
    cases op with
    | enq agent name cfg src id now =>
      exact ih _ (liveInv_applyOp q _ hq (by intro id2 now2 h; cases h)) hnc
    | next now =>
      exact ih _ (liveInv_applyOp q _ hq (by intro id2 now2 h; cases h)) hnc
    | upd id status now =>
      exact ih _ (liveInv_applyOp q _ hq (by intro id2 now2 h; cases h)) hnc
    | cancel id now => exact absurd hnc (by simp [hasCancel])

/-- C2 counterexample: enqueue one pending job into an empty queue with
`max_history = 10` and cancel it.  The cancel succeeds, yet the live queue
now holds exactly one entry in a terminal state (`cancel` marks the job
cancelled but leaves it in the live queue), refuting the claimed
zero-terminal invariant immediately after a successful cancel. -/
theorem c2_counterexample :
    (((DeployQueue.new 10).enqueue
        (DeployJob.new "local" "x" cfgX none "id1" 0)).cancel "id1" 1).1 = true
    ∧ ((((DeployQueue.new 10).enqueue
        (DeployJob.new "local" "x" cfgX none "id1" 0)).cancel "id1" 1).2.jobs.countP
          (fun j => j.status.isTerminal)) = 1 := by
  exact ⟨rfl, rfl⟩

/-- C2 amended: starting from an empty queue, after any sequence of
enqueue, next_job, update_status and cancel operations the history length
is at most `max_history`; after any cancel-free sequence no live-queue
entry is in a terminal state (in particular immediately after a terminal
`update_status`); but a successful `cancel` leaves the cancelled,
`completed_at`-stamped job in the live queue. -/
theorem c2_amended_invariants :
    (∀ (maxh : Nat) (ops : List QueueOp), histInv (runOps (DeployQueue.new maxh) ops))
    ∧ (∀ (maxh : Nat) (ops : List QueueOp), hasCancel ops = false →
        liveInv (runOps (DeployQueue.new maxh) ops))
    ∧ (∀ (q : DeployQueue) (id : String) (now : Nat), (q.cancel id now).1 = true →
        ∃ j ∈ (q.cancel id now).2.jobs,
          j.id = id ∧ j.status = .cancelled ∧ j.completed_at = some now) := by
  refine ⟨fun maxh ops => histInv_runOps ops _ (by simp [histInv, DeployQueue.new]),
    fun maxh ops hnc => liveInv_runOps ops _ (by simp [liveInv, DeployQueue.new]) hnc,
    fun q id now hc => ?_⟩
  unfold DeployQueue.cancel at hc ⊢
  cases hm : modifyFirst (fun j => j.id = id && j.status = .pending)
      (fun j => { j with status := .cancelled, completed_at := some now }) q.jobs with
  | none => rw [hm] at hc; simp at hc
  | some l2 =>
    obtain ⟨y, hy, hpy, hfy⟩ := modifyFirst_found _ _ q.jobs l2 hm
    refine ⟨{ y with status := .cancelled, completed_at := some now }, hfy, ?_, rfl, rfl⟩
    have := (Bool.and_eq_true _ _).mp hpy
    simpa using this.1

theorem c2_witness :
    liveInv (runOps (DeployQueue.new 2)
      [QueueOp.enq "local" "x" cfgX none "a" 0, QueueOp.next 1,
       QueueOp.upd "a" .completed 2]) :=
  c2_amended_invariants.2.1 2
    [QueueOp.enq "local" "x" cfgX none "a" 0, QueueOp.next 1,
     QueueOp.upd "a" .completed 2] rfl

/-! ## Admission pipeline (C4) -/

theorem network_isolation_cases (isolationMode : Bool) (ipAllowed : String → Bool)
    (req : HttpRequest) :
    network_isolation isolationMode ipAllowed req = ⟨.pass, []⟩
    ∨ network_isolation isolationMode ipAllowed req =
        ⟨.reject 403, [⟨req.clientIp, req.method, req.path, "network_violation"⟩]⟩ := by
  unfold network_isolation
  by_cases hiso : isolationMode <;> by_cases hip : ipAllowed req.clientIp <;>
    simp [hiso, hip]

theorem jwt_auth_cases (tokenOf : String → Token) (now leeway : Int)
    (secret : String) (req : HttpRequest) :
    jwt_auth tokenOf now leeway secret req = ⟨.pass, []⟩
    ∨ jwt_auth tokenOf now leeway secret req =
        ⟨.reject 401, [⟨req.clientIp, req.method, req.path, "missing_auth"⟩]⟩
    ∨ jwt_auth tokenOf now leeway secret req =
        ⟨.reject 401, [⟨req.clientIp, req.method, req.path, "malformed_auth_header"⟩]⟩
    ∨ ∃ e, jwt_auth tokenOf now leeway secret req =
        ⟨.reject 401,
         [⟨req.clientIp, req.method, req.path, "invalid_jwt: " ++ jwtErrMsg e⟩]⟩ := by
  unfold jwt_auth
  by_cases hskip : (req.path = "/health" ∨ req.path = "/" ∨ req.path = "/monitoring")
  · rw [if_pos hskip]
    exact Or.inl rfl
  · rw [if_neg hskip]
    cases req.authHeader with
    | none => simp
    | some h =>
      by_cases hb : h.startsWith "Bearer "
      · cases hv : validate_token now leeway secret (tokenOf (h.drop 7)) with
        | ok c => simp [hb, hv]
        | error e =>
          refine Or.inr (Or.inr (Or.inr ⟨e, ?_⟩))
          simp [hb, hv]
      · simp [hb]

theorem rate_limiting_cases (rl : RateLimiter) (now : Nat) (req : HttpRequest) :
    (rate_limiting rl now req).1 = ⟨.pass, []⟩
    ∨ (rate_limiting rl now req).1 =
        ⟨.reject 429, [⟨req.clientIp, req.method, req.path, "rate_limit_exceeded"⟩]⟩ := by
  unfold rate_limiting
  rcases hc : rl.check now req.clientIp with ⟨b, rl2⟩
  cases b <;> simp

/-- C4: the admission pipeline either passes the request downstream with
no suspicious-request record, or rejects it with exactly one record whose
reason corresponds to the status: `network_violation` with 403,
`rate_limit_exceeded` with 429, and `missing_auth`,
`malformed_auth_header` or `invalid_jwt: <detail>` with 401.  In
particular every rejection logs a record and every logged record belongs
to a request rejected with 401, 403 or 429 before any downstream handler. -/
theorem c4_admission_logs_iff_reject (isolationMode : Bool)
    (ipAllowed : String → Bool) (tokenOf : String → Token) (now leeway : Int)
    (secret : String) (rl : RateLimiter) (rlNow : Nat) (req : HttpRequest)
    (m : MwResult × RateLimiter)
    (hm : admission_pipeline isolationMode ipAllowed tokenOf now leeway secret
      rl rlNow req = m) :
    m.1 = ⟨.pass, []⟩
    ∨ (∃ rec, m.1 = ⟨.reject 403, [rec]⟩ ∧ rec.reason = "network_violation")
    ∨ (∃ rec, m.1 = ⟨.reject 429, [rec]⟩ ∧ rec.reason = "rate_limit_exceeded")
    ∨ (∃ rec, m.1 = ⟨.reject 401, [rec]⟩ ∧
        (rec.reason = "missing_auth" ∨ rec.reason = "malformed_auth_header" ∨
         ∃ e, rec.reason = "invalid_jwt: " ++ jwtErrMsg e)) := by
  subst hm
  unfold admission_pipeline
  rcases network_isolation_cases isolationMode ipAllowed req with hn | hn <;> rw [hn]
  · rcases jwt_auth_cases tokenOf now leeway secret req with hj | hj | hj | ⟨e, hj⟩ <;>
      rw [hj]
    · rcases rate_limiting_cases rl rlNow req with hr | hr <;> rw [hr]
      · exact Or.inl rfl
      · exact Or.inr (Or.inr (Or.inl ⟨_, rfl, rfl⟩))
    · exact Or.inr (Or.inr (Or.inr ⟨_, rfl, Or.inl rfl⟩))
    · exact Or.inr (Or.inr (Or.inr ⟨_, rfl, Or.inr (Or.inl rfl)⟩))
    · exact Or.inr (Or.inr (Or.inr ⟨_, rfl, Or.inr (Or.inr ⟨e, rfl⟩)⟩))
  · exact Or.inr (Or.inl ⟨_, rfl, rfl⟩)

theorem c4_witness :
    (admission_pipeline false (fun _ => true) tokenOfW 0 60 "secret" rlOne 5
        reqNoAuth).1
      = ⟨.pass, []⟩
    ∨ (∃ rec, (admission_pipeline false (fun _ => true) tokenOfW 0 60 "secret" rlOne 5
        reqNoAuth).1 = ⟨.reject 403, [rec]⟩ ∧ rec.reason = "network_violation")
    ∨ (∃ rec, (admission_pipeline false (fun _ => true) tokenOfW 0 60 "secret" rlOne 5
        reqNoAuth).1 = ⟨.reject 429, [rec]⟩ ∧ rec.reason = "rate_limit_exceeded")
    ∨ (∃ rec, (admission_pipeline false (fun _ => true) tokenOfW 0 60 "secret" rlOne 5
        reqNoAuth).1 = ⟨.reject 401, [rec]⟩ ∧
        (rec.reason = "missing_auth" ∨ rec.reason = "malformed_auth_header" ∨
         ∃ e, rec.reason = "invalid_jwt: " ++ jwtErrMsg e)) :=
  c4_admission_logs_iff_reject false (fun _ => true) tokenOfW 0 60 "secret" rlOne 5
    reqNoAuth _ rfl

/-! ## Trigger fan-out (C6) -/

/-- C6: when the worker completes a successful, unskipped parent whose
trigger list is `[A, B]` and both names resolve, exactly the fresh jobs
for A and B are enqueued in that order, each with
`trigger_source = "trigger:<parent_name>"`; and when the fan-out reaches a
missing name while `continue_on_failure` is false, it stops — the
remaining names contribute no jobs. -/
theorem c6_trigger_fanout :
    (∀ (deployments : List DeploymentConfig) (parent : DeployJob) (r : DeployResult)
        (ids : Nat → String) (now : Nat) (A B : String) (ca cb : DeploymentConfig),
      r.success = true → r.skipped = false →
      parent.config.trigger = [A, B] →
      deployments.find? (fun d => d.name = A) = some ca →
      deployments.find? (fun d => d.name = B) = some cb →
      workerChildJobs deployments parent r ids now =
        [DeployJob.new parent.agent_name A ca
            (some ("trigger:" ++ parent.deployment_name)) (ids 0) now,
         DeployJob.new parent.agent_name B cb
            (some ("trigger:" ++ parent.deployment_name)) (ids 1) now])
    ∧ (∀ (deployments : List DeploymentConfig) (parent : DeployJob)
        (ids : Nat → String) (now : Nat) (m : String) (rest : List String) (k : Nat),
      deployments.find? (fun d => d.name = m) = none →
      parent.config.continue_on_failure = false →
      process_triggers_go deployments parent ids now (m :: rest) k = []) := by
  constructor
  · intro deployments parent r ids now A B ca cb hs hk htr hA hB
    simp [workerChildJobs, hs, hk, htr, process_triggers, process_triggers_go, hA, hB]
  · intro deployments parent ids now m rest k hm hcof
    simp [process_triggers_go, hm, hcof]

theorem c6_witness :
    workerChildJobs [cfgA, cfgB] parentAB resOk idsW 7 =
      [DeployJob.new "local" "A" cfgA (some "trigger:parent") (idsW 0) 7,
       DeployJob.new "local" "B" cfgB (some "trigger:parent") (idsW 1) 7] :=
  c6_trigger_fanout.1 [cfgA, cfgB] parentAB resOk idsW 7 "A" "B" cfgA cfgB
    rfl rfl rfl (by decide) (by decide)

/-! ## Skipped deployments run no post-deploy commands and no triggers (C1) -/

/-- C1: whenever `DeployExecutor::execute` returns `success = true` and
`skipped = true`, no post-deploy command was handed to the script runner,
and the worker enqueues no trigger-child jobs for that job. -/
theorem c1_skipped_suppresses_post_and_triggers
    (env : ExecEnv) (job : DeployJob) (deployments : List DeploymentConfig)
    (ids : Nat → String) (now : Nat) (r : DeployResult) (pre post : List String)
    (hE : execute env job.config = (r, pre, post))
    (hs : r.success = true) (hk : r.skipped = true) :
    post = [] ∧ workerChildJobs deployments job r ids now = [] := by
  simp only [execute] at hE
  repeat' split at hE
  all_goals simp only [Prod.mk.injEq] at hE
  all_goals first
    | exact hE.elim
    | (obtain ⟨rfl, rfl, rfl⟩ := hE
       first
         | exact ⟨rfl, by simp [workerChildJobs]⟩
         | (exfalso; simp at hk))

theorem c1_witness :
    (execute envNoChanges jobGit.config).2.2 = []
    ∧ workerChildJobs [] jobGit (execute envNoChanges jobGit.config).1 idsW 0 = [] :=
  c1_skipped_suppresses_post_and_triggers envNoChanges jobGit [] idsW 0 _ _ _
    rfl rfl rfl

theorem c8_witness :
    yamlTrue remoteSample = true ∧ remoteSample ≠ "" ∧
    50 ≤ remoteSample.utf8ByteSize ∧ containsSubstr remoteSample "mode:" = true ∧
    (config_sync hashId yamlTrue remoteSample "" false).2.1 = remoteSample :=
  (c8_config_sync_guard hashId yamlTrue remoteSample "" false).1 (by decide)

end Infractl
